import Mathlib

/-!
Shallow embedding of the predictionDapp core: the on-chain
ClarityOptimisticOracle assertion state machine
(smart-contract, `ClarityOptimisticOracle.sol`), the off-chain
multi-provider consensus engine (`relayer/src/aiConsensus.ts`), the
Perplexity evidence-provider client (`relayer/src/perplexityClient.ts`)
and the orchestrating event listener (`relayer/src/eventListenerV2.ts`).
-/

namespace ClarityOracle

/-- Byte strings (Solidity `bytes` / `string` payloads) as lists of byte values. -/
abbrev Bytes := List Nat

/-- The `Assertion` struct of `ClarityOptimisticOracle`. -/
structure Assertion where
  data : Bytes
  proposer : Nat
  disputer : Nat
  bond : Nat
  disputeBond : Nat
  challengeWindowEnd : Nat
  isDisputed : Bool
  isResolved : Bool
  isFinalized : Bool
  resolutionOutcome : Bool
  deriving Repr, DecidableEq

/-- The all-zero mapping default value of the `assertions` mapping. -/
def Assertion.empty : Assertion :=
  ⟨[], 0, 0, 0, 0, 0, false, false, false, false⟩

/-- Constant `PROPOSER_BOND = 0.01 ether`, in wei. -/
def PROPOSER_BOND : Nat := 10 ^ 16

/-- Constant `DISPUTER_BOND = 0.02 ether`, in wei. -/
def DISPUTER_BOND : Nat := 2 * 10 ^ 16

/-- Contract storage: the `assertions` mapping (keyed by the `bytes32`
assertion id, modelled as `Nat`), the arbitrator (`owner`), the mutable
`LIVENESS_PERIOD`, and a log of the ether transfers the contract has made
(each `winner.call{value: amount}` that succeeded). -/
structure OracleState where
  assertions : Nat → Assertion
  owner : Nat
  livenessPeriod : Nat
  payouts : List (Nat × Nat)

/-- The revert reasons of `ClarityOptimisticOracle`. -/
inductive OErr where
  | emptyQuestion
  | questionTooLong
  | dataTooLong
  | notProposed
  | alreadyProposed
  | alreadyDisputed
  | alreadyResolved
  | alreadyFinalized
  | challengeWindowExpired
  | challengeWindowNotExpired
  | incorrectBond
  | notDisputed
  | notOwner
  | transferFailed
  deriving Repr, DecidableEq

/-- The byte sequence `bytes(question)` of a question string, modelled per
character code point (it agrees with the UTF-8 bytes on ASCII text, and is
injective in the text either way). -/
def strBytes (q : String) : Bytes :=
  q.data.map Char.toNat

/-- Transition `requestQuestion(string question)`: requires nonempty text of at most 500
bytes, computes `assertionId = keccak256(bytes(question))` (the hash function
is a parameter of the embedding), reverts `AlreadyProposed` when an assertion
with a proposer already exists for that id, and otherwise returns the id.
It writes no storage (it only emits `QuestionRequested`). -/
def requestQuestion (keccak : Bytes → Nat) (st : OracleState) (q : String) :
    Except OErr Nat :=
  if (strBytes q).length = 0 then
    Except.error OErr.emptyQuestion
  else if 500 < (strBytes q).length then
    Except.error OErr.questionTooLong
  else
    let assertionId := keccak (strBytes q)
    if (st.assertions assertionId).proposer ≠ 0 then
      Except.error OErr.alreadyProposed
    else
      Except.ok assertionId

/-- Transition `proposeAssertion(bytes32 _assertionId, bytes _data)` with `msg.value`
attached: exact bond check, 5000-byte payload cap, then the
`AlreadyProposed` / `AlreadyFinalized` / `AlreadyResolved` guards, then the
full overwrite of the assertion record with
`challengeWindowEnd = block.timestamp + LIVENESS_PERIOD`. -/
def proposeAssertion (st : OracleState) (sender value now assertionId : Nat)
    (data : Bytes) : Except OErr OracleState :=
  if value ≠ PROPOSER_BOND then
    Except.error OErr.incorrectBond
  else if 5000 < data.length then
    Except.error OErr.dataTooLong
  else
    let a := st.assertions assertionId
    if a.proposer ≠ 0 then
      Except.error OErr.alreadyProposed
    else if a.isFinalized then
      Except.error OErr.alreadyFinalized
    else if a.isResolved then
      Except.error OErr.alreadyResolved
    else
      Except.ok { st with
        assertions := fun i =>
          if i = assertionId then
            ⟨data, sender, 0, value, 0, now + st.livenessPeriod,
              false, false, false, false⟩
          else st.assertions i }

/-- Transition `disputeAssertion(bytes32 _assertionId)` with `msg.value` attached:
guards in source order (not proposed, window expired, already disputed,
already finalized, already resolved, incorrect bond), then records the
disputer and the dispute bond. -/
def disputeAssertion (st : OracleState) (sender value now assertionId : Nat) :
    Except OErr OracleState :=
  let a := st.assertions assertionId
  if a.proposer = 0 then
    Except.error OErr.notProposed
  else if a.challengeWindowEnd ≤ now then
    Except.error OErr.challengeWindowExpired
  else if a.isDisputed then
    Except.error OErr.alreadyDisputed
  else if a.isFinalized then
    Except.error OErr.alreadyFinalized
  else if a.isResolved then
    Except.error OErr.alreadyResolved
  else if value ≠ DISPUTER_BOND then
    Except.error OErr.incorrectBond
  else
    Except.ok { st with
      assertions := fun i =>
        if i = assertionId then
          { a with isDisputed := true, disputer := sender, disputeBond := value }
        else st.assertions i }

/-- Transition `resolveDispute(bytes32 _assertionId, bool _outcome)`: restricted by `onlyOwner`, then
the `NotDisputed` / `AlreadyResolved` / `AlreadyFinalized` guards; the winner
is the proposer when `_outcome` and the disputer otherwise, and the combined
pot `bond + disputeBond` is sent by a bounded-gas call whose success is the
oracle `transferOk winner pot`. A failed call reverts the whole transition
(the returned error carries no new state), so `isResolved` is committed only
together with the payout. -/
def resolveDispute (st : OracleState) (sender assertionId : Nat)
    (outcome : Bool) (transferOk : Nat → Nat → Bool) :
    Except OErr OracleState :=
  if sender ≠ st.owner then
    Except.error OErr.notOwner
  else
    let a := st.assertions assertionId
    if ¬ a.isDisputed then
      Except.error OErr.notDisputed
    else if a.isResolved then
      Except.error OErr.alreadyResolved
    else if a.isFinalized then
      Except.error OErr.alreadyFinalized
    else
      let winner := if outcome then a.proposer else a.disputer
      let totalPot := a.bond + a.disputeBond
      if ¬ transferOk winner totalPot then
        Except.error OErr.transferFailed
      else
        Except.ok { st with
          assertions := fun i =>
            if i = assertionId then
              { a with isResolved := true, resolutionOutcome := outcome }
            else st.assertions i,
          payouts := st.payouts ++ [(winner, totalPot)] }

/-- Transition `finalizeAssertion(bytes32 _assertionId)`: guards in source order (not
proposed, already disputed, already finalized, already resolved, window not
yet expired), then returns the proposer bond by a bounded-gas call whose
success is `transferOk proposer bond`; a failed call reverts the whole
transition. -/
def finalizeAssertion (st : OracleState) (now assertionId : Nat)
    (transferOk : Nat → Nat → Bool) : Except OErr OracleState :=
  let a := st.assertions assertionId
  if a.proposer = 0 then
    Except.error OErr.notProposed
  else if a.isDisputed then
    Except.error OErr.alreadyDisputed
  else if a.isFinalized then
    Except.error OErr.alreadyFinalized
  else if a.isResolved then
    Except.error OErr.alreadyResolved
  else if now < a.challengeWindowEnd then
    Except.error OErr.challengeWindowNotExpired
  else if ¬ transferOk a.proposer a.bond then
    Except.error OErr.transferFailed
  else
    Except.ok { st with
      assertions := fun i =>
        if i = assertionId then { a with isFinalized := true }
        else st.assertions i,
      payouts := st.payouts ++ [(a.proposer, a.bond)] }

/-- Read accessor `canDispute(bytes32 _assertionId)`: proposed, not disputed, not
finalized, not resolved, and `block.timestamp < challengeWindowEnd`. -/
def canDispute (st : OracleState) (now assertionId : Nat) : Bool :=
  let a := st.assertions assertionId
  a.proposer ≠ 0 && !a.isDisputed && !a.isFinalized && !a.isResolved
    && decide (now < a.challengeWindowEnd)

/-- Whether a transition attempt succeeded (did not revert). -/
def okB {ε α : Type} (e : Except ε α) : Bool :=
  match e with
  | Except.ok _ => true
  | Except.error _ => false

end ClarityOracle

namespace Consensus

/-- One citation record of an `AIResponse` (`relayer/src/aiConsensus.ts`). -/
structure Source where
  title : String
  url : String
  quote : String
  deriving Repr, DecidableEq

/-- The `AIResponse` interface of `aiConsensus.ts`: verdict label, summary,
citations and the optional numeric confidence (`confidence?: number`). -/
structure AIResponse where
  verdict : String
  summary : String
  sources : List Source
  confidence : Option Nat
  deriving Repr, DecidableEq

/-- One entry of the `results` list built inside `getAIConsensus`:
`{ model, response, verified }`. -/
structure Detail where
  model : String
  response : AIResponse
  verified : Bool
  deriving Repr, DecidableEq

/-- The `ConsensusResult` interface of `aiConsensus.ts`. -/
structure ConsensusResult where
  isClear : Bool
  answer : Option AIResponse
  consensusCount : Nat
  totalModels : Nat
  details : List Detail
  deriving Repr, DecidableEq

/-- The tally update `verdictCounts[verdict] = (verdictCounts[verdict] || 0) + 1` on a plain
JS object: an association list in key-insertion order, bumping an existing
key in place and appending a fresh key at the end. -/
def bumpCount (counts : List (String × Nat)) (v : String) :
    List (String × Nat) :=
  match counts with
  | [] => [(v, 1)]
  | (k, n) :: rest =>
    if k = v then (k, n + 1) :: rest else (k, n) :: bumpCount rest v

/-- The verdict tally of `getAIConsensus`, built by the `for` loop over the
verified responses; `Object.entries` later iterates it in this same
insertion order. -/
def verdictCounts (vs : List String) : List (String × Nat) :=
  vs.foldl bumpCount []

/-- The `verifiedResults` local: `results.filter(r => r.verified)`. -/
def verifiedOf (results : List Detail) : List Detail :=
  results.filter (fun r => r.verified)

/-- The sort key `b.response.confidence || 0`: missing confidence counts as 0. -/
def confOf (d : Detail) : Nat :=
  d.response.confidence.getD 0

/-- The `threshold` local: `Math.ceil(verifiedResults.length / 2)`. -/
def thresholdOf (results : List Detail) : Nat :=
  ((verifiedOf results).length + 1) / 2

/-- The selection `.sort((a, b) => (b.conf || 0) - (a.conf || 0))[0]` on a nonempty list:
the head of a stable descending sort, i.e. the first element whose
confidence is maximal (later elements replace the accumulator only when
strictly more confident). -/
def bestByConfidence : List Detail → Option Detail
  | [] => none
  | d :: rest =>
    some (rest.foldl (fun acc x => if confOf acc < confOf x then x else acc) d)

/-- Step 4 of `getAIConsensus` (the consensus logic): filter to verified
responses; with none, report unclear over `results.length` models; otherwise
tally verdicts, take the first label whose count reaches
`⌈verified/2⌉` (`Object.entries(...).find(...)`), and answer with the
highest-confidence response carrying that label. The inner `none` branch is
unreachable (a tallied label always occurs in the filtered list). -/
def computeConsensus (results : List Detail) : ConsensusResult :=
  let verifiedResults := verifiedOf results
  if verifiedResults.isEmpty then
    ⟨false, none, 0, results.length, results⟩
  else
    let counts := verdictCounts (verifiedResults.map (fun r => r.response.verdict))
    let threshold := thresholdOf results
    match counts.find? (fun p => threshold ≤ p.2) with
    | some (v, c) =>
      match bestByConfidence
          (verifiedResults.filter (fun r => r.response.verdict = v)) with
      | some best => ⟨true, some best.response, c, verifiedResults.length, results⟩
      | none => ⟨false, none, 0, verifiedResults.length, results⟩
    | none => ⟨false, none, 0, verifiedResults.length, results⟩

/-- Outcome of one provider query promise before its `.catch` handler. -/
inductive QueryOutcome where
  | ok (content : String)
  | fail
  deriving Repr, DecidableEq

/-- The fan-out of `getAIConsensus` joined by `Promise.all`: Perplexity is
always queried and its `.catch` handler rethrows, so a Perplexity failure
rejects the whole join; Gemini and OpenAI are queried only when configured
(`none` = no key) and their `.catch` handlers resolve to `content: null`. -/
def runQueries (perp : QueryOutcome) (gemini openai : Option QueryOutcome) :
    Except Unit (List (String × Option String)) :=
  match perp with
  | QueryOutcome.fail => Except.error ()
  | QueryOutcome.ok c =>
    Except.ok
      ([("perplexity", some c)]
        ++ (match gemini with
            | none => []
            | some (QueryOutcome.ok g) => [("gemini", some g)]
            | some QueryOutcome.fail => [("gemini", none)])
        ++ (match openai with
            | none => []
            | some (QueryOutcome.ok o) => [("openai", some o)]
            | some QueryOutcome.fail => [("openai", none)]))

/-- The parse-and-verify loop of `getAIConsensus`: a `null` content or an
unparsable content is skipped (`continue`); otherwise the parsed response is
self-verified and recorded. `parse` abstracts `parseAIResponse` and `verify`
abstracts the network-driven `selfVerify`. -/
def collectDetails (qrs : List (String × Option String))
    (parse : String → Option AIResponse)
    (verify : String → AIResponse → Bool) : List Detail :=
  qrs.filterMap (fun mc =>
    match mc.2 with
    | none => none
    | some content =>
      (parse content).map (fun p => ⟨mc.1, p, verify mc.1 p⟩))

/-- The function `getAIConsensus`, as a function of the three provider outcomes and of the
parse / self-verification oracles: a rejected join is a hard failure of the
round, otherwise the consensus logic runs on the collected details. -/
def getAIConsensus (perp : QueryOutcome) (gemini openai : Option QueryOutcome)
    (parse : String → Option AIResponse)
    (verify : String → AIResponse → Bool) : Except Unit ConsensusResult :=
  match runQueries perp gemini openai with
  | Except.error e => Except.error e
  | Except.ok qrs => Except.ok (computeConsensus (collectDetails qrs parse verify))

end Consensus

namespace Perplexity

/-- A JSON value, as produced by `JSON.parse` on a provider response. -/
inductive Json where
  | null
  | bool (b : Bool)
  | num (n : Int)
  | str (s : String)
  | arr (xs : List Json)
  | obj (fields : List (String × Json))

/-- One citation of the Perplexity client `AIResponse`. -/
structure Source where
  title : String
  url : String
  quote : String
  deriving Repr, DecidableEq

/-- The `AIResponse` interface of `perplexityClient.ts` (no confidence). -/
structure AIResponse where
  verdict : String
  summary : String
  sources : List Source
  deriving Repr, DecidableEq

/-- The errors `getResolution` throws past its network layer: `JSON.parse`
failure, the missing-required-fields check, and the JS `TypeError` raised
when a later field access assumes a string on a non-string value. -/
inductive PErr where
  | invalidJson
  | missingFields
  | typeError
  deriving Repr, DecidableEq

/-- JS `String.prototype.trim()`: strip leading and trailing whitespace. -/
def jsTrim (s : String) : String :=
  ⟨((s.data.dropWhile Char.isWhitespace).reverse.dropWhile
      Char.isWhitespace).reverse⟩

/-- JS `String.prototype.substring(0, n)`: the first `n` characters. -/
def jsTake (s : String) (n : Nat) : String :=
  ⟨s.data.take n⟩

/-- Property lookup on a parsed object: `parsed.k`. -/
def getField (j : Json) (k : String) : Option Json :=
  match j with
  | Json.obj fields => (fields.find? (fun f => f.1 = k)).map (fun f => f.2)
  | _ => none

/-- JS truthiness of a property (`!parsed.verdict` etc.): absent, `null`,
`false`, `0` and `""` are falsy. -/
def truthy (j : Option Json) : Bool :=
  match j with
  | none => false
  | some Json.null => false
  | some (Json.bool b) => b
  | some (Json.num n) => decide (n ≠ 0)
  | some (Json.str s) => decide (s ≠ "")
  | some (Json.arr _) => true
  | some (Json.obj _) => true

/-- The check `Array.isArray(parsed.sources)`. -/
def isArrayField (j : Option Json) : Bool :=
  match j with
  | some (Json.arr _) => true
  | _ => false

/-- String view of a JSON value (`none` where JS would raise `TypeError` on
`.trim()` / `.length`). -/
def jsonStr (j : Json) : Option String :=
  match j with
  | Json.str s => some s
  | _ => none

/-- String property with a `||`-style default: a non-string or falsy value
falls back to the default. -/
def strFieldOr (j : Json) (k dflt : String) : String :=
  match getField j k with
  | some (Json.str s) => if s = "" then dflt else s
  | _ => dflt

/-- The source-normalisation step
`.filter(source => source && typeof source === \u0027object\u0027).map(...)`:
JS `typeof` calls arrays and objects both object (and `null` is dropped
by the truthy conjunct); each kept entry is truncated to the fixed maxima. -/
def normalizeSource (j : Json) : Option Source :=
  match j with
  | Json.obj _ =>
    some ⟨jsTake (strFieldOr j "title" "Unknown") 100,
          jsTake (strFieldOr j "url" "") 200,
          jsTake (strFieldOr j "quote" "") 200⟩
  | Json.arr _ =>
    some ⟨jsTake (strFieldOr j "title" "Unknown") 100,
          jsTake (strFieldOr j "url" "") 200,
          jsTake (strFieldOr j "quote" "") 200⟩
  | _ => none

/-- The synthetic citation that `getResolution` substitutes when the parsed
response carries an empty `sources` array. -/
def syntheticSourceJson : Json :=
  Json.obj
    [("title", Json.str "Insufficient Evidence"),
     ("url", Json.str ""),
     ("quote",
      Json.str "AI could not find sufficient sources to support or refute the question")]

/-- The validation phase of `PerplexityClient.getResolution`, as a function
of the `JSON.parse` result (`none` = the parse threw): a parse failure and a
missing/falsy `verdict`/`summary`/non-array `sources` are thrown to the
caller; an empty `sources` array is replaced by the synthetic citation and
the verdict forced to `Unclear`; sources are normalised and capped at 3; an
unrecognised verdict is normalised to `Unclear`; the summary is truncated to
280 characters. -/
def validateResolution (parsed : Option Json) : Except PErr AIResponse :=
  match parsed with
  | none => Except.error PErr.invalidJson
  | some j =>
    if !truthy (getField j "verdict") || !truthy (getField j "summary")
        || !isArrayField (getField j "sources") then
      Except.error PErr.missingFields
    else
      match getField j "sources", getField j "verdict", getField j "summary" with
      | some (Json.arr xs), some vj, some sj =>
        let emptySources := xs.isEmpty
        let xs1 := if emptySources then [syntheticSourceJson] else xs
        let sources := (xs1.filterMap normalizeSource).take 3
        let vstr : Option String :=
          if emptySources then some "Unclear" else jsonStr vj
        match vstr, jsonStr sj with
        | some v, some s =>
          let trimmed := jsTrim v
          let verdict :=
            if trimmed ∈ ["Supported", "Refuted", "Unclear"] then trimmed
            else "Unclear"
          let summary := if 280 < s.length then jsTake s 277 ++ "..." else s
          Except.ok ⟨verdict, summary, sources⟩
        | _, _ => Except.error PErr.typeError
      | _, _, _ => Except.error PErr.missingFields

end Perplexity

namespace Listener

/-- What `getAIConsensus` did for a question, seen from `processQuestion`:
it rejected, it returned `isClear=false` / no answer, or it returned a clear
answer. -/
inductive ConsensusOutcome where
  | throws
  | notClear
  | clear
  deriving Repr, DecidableEq

/-- The environment of one `processQuestion` run: whether the pre-submission
`getAssertion` read rejects, whether it reports an existing proposer, what
the consensus engine does, and whether the `proposeAssertion` submission
rejects. -/
structure Env where
  chainCheckThrows : Bool
  alreadyProposed : Bool
  consensus : ConsensusOutcome
  submitThrows : Bool
  deriving Repr, DecidableEq

/-- The observable outcome of one `processQuestion` run. -/
inductive Outcome where
  | droppedDuplicate
  | skippedOnChain
  | noConsensus
  | proposed
  | failed
  deriving Repr, DecidableEq

/-- The method `EventListenerV2.processQuestion`: the question hash is looked up in
`processedQuestions` and the run is dropped when present; otherwise the hash
is added before any dispatch, and the `catch` handler removes it again when
any awaited step rejects. An already-proposed assertion and a no-consensus
round return early with the hash left in the set; only a successful
`proposeAssertion` call counts as a propose submission. -/
def processQuestion (hashQ : String → Nat) (processed : List Nat)
    (q : String) (e : Env) : List Nat × Outcome :=
  let h := hashQ q
  if h ∈ processed then
    (processed, Outcome.droppedDuplicate)
  else
    let processed1 := h :: processed
    if e.chainCheckThrows then
      (processed1.erase h, Outcome.failed)
    else if e.alreadyProposed then
      (processed1, Outcome.skippedOnChain)
    else
      match e.consensus with
      | ConsensusOutcome.throws => (processed1.erase h, Outcome.failed)
      | ConsensusOutcome.notClear => (processed1, Outcome.noConsensus)
      | ConsensusOutcome.clear =>
        if e.submitThrows then (processed1.erase h, Outcome.failed)
        else (processed1, Outcome.proposed)

/-- 1 when an outcome is a successful propose submission, else 0. -/
def proposeCount (o : Outcome) : Nat :=
  if o = Outcome.proposed then 1 else 0

end Listener

namespace Fixtures

open ClarityOracle

/-- Stand-in for the opaque `keccak256` parameter of the embedding. -/
def keccak0 : Bytes → Nat := fun bs => bs.length

/-- A fresh oracle deployment: empty `assertions` mapping, arbitrator `9`,
the default 60-second liveness period, no transfers yet. -/
def st0 : OracleState := ⟨fun _ => Assertion.empty, 9, 60, []⟩

/-- A live proposed assertion: proposer `5`, bond escrowed, window ends at
time `100`, undisputed, unresolved, unfinalized. -/
def aProp : Assertion :=
  ⟨[1], 5, 0, PROPOSER_BOND, 0, 100, false, false, false, false⟩

/-- State `st0` with `aProp` stored at assertion id `7`. -/
def stProp : OracleState :=
  ⟨fun i => if i = 7 then aProp else Assertion.empty, 9, 60, []⟩

/-- A disputed assertion: proposer `5`, disputer `6`, both bonds escrowed. -/
def aDisp : Assertion :=
  ⟨[1], 5, 6, PROPOSER_BOND, DISPUTER_BOND, 100, true, false, false, false⟩

/-- State `st0` with `aDisp` stored at assertion id `7`. -/
def stDisp : OracleState :=
  ⟨fun i => if i = 7 then aDisp else Assertion.empty, 9, 60, []⟩

/-- An external account setting where every ether transfer succeeds. -/
def alwaysOk : Nat → Nat → Bool := fun _ _ => true

/-- An external account setting where every ether transfer fails. -/
def neverOk : Nat → Nat → Bool := fun _ _ => false

/-- A verified `SUPPORTED` response with confidence 80. -/
def respS : Consensus.AIResponse := ⟨"SUPPORTED", "event occurred", [], some 80⟩

/-- A verified `SUPPORTED` response with confidence 90. -/
def respS2 : Consensus.AIResponse :=
  ⟨"SUPPORTED", "event occurred indeed", [], some 90⟩

/-- A verified `REFUTED` response with confidence 95. -/
def respR : Consensus.AIResponse := ⟨"REFUTED", "event did not occur", [], some 95⟩

/-- Three verified details labelled [SUPPORTED, SUPPORTED, REFUTED]. -/
def ssr : List Consensus.Detail :=
  [⟨"perplexity", respS, true⟩, ⟨"gemini", respS2, true⟩, ⟨"openai", respR, true⟩]

/-- Two verified details labelled [SUPPORTED, REFUTED]. -/
def splitTwo : List Consensus.Detail :=
  [⟨"perplexity", respS, true⟩, ⟨"gemini", respR, true⟩]

/-- A concrete parse oracle: content `"S"` parses to `respS`, content `"R"`
to `respR`, anything else is unparsable. -/
def parse0 : String → Option Consensus.AIResponse :=
  fun s => if s = "S" then some respS else if s = "R" then some respR else none

/-- A self-verification oracle that passes every response. -/
def verify0 : String → Consensus.AIResponse → Bool := fun _ _ => true

end Fixtures

open ClarityOracle Consensus Perplexity Listener Fixtures

/-- C10: `canDispute` agrees exactly with the success of a
`disputeAssertion` call carrying the exact `DISPUTER_BOND` at the same
time, on every reachable or unreachable oracle state. -/
theorem canDispute_iff_dispute_succeeds (st : OracleState)
    (sender now assertionId : Nat) :
    okB (disputeAssertion st sender DISPUTER_BOND now assertionId)
      = canDispute st now assertionId := by
  simp only [disputeAssertion, canDispute]
  split_ifs with h1 h2 h3 h4 h5 h6 <;> simp_all [okB]

/-- C10 witness: on the concrete proposed state, `canDispute` is true at
time 50 and the matching dispute succeeds. -/
theorem canDispute_iff_dispute_succeeds_witness :
    okB (disputeAssertion stProp 6 DISPUTER_BOND 50 7) = canDispute stProp 50 7
      ∧ canDispute stProp 50 7 = true :=
  ⟨canDispute_iff_dispute_succeeds stProp 6 50 7, by decide⟩

/-- C6: on a proposed, undisputed, unresolved, unfinalized assertion with
the exact required bond attached (and the bond-return transfer able to
succeed), `disputeAssertion` succeeds iff `now < challengeWindowEnd` and
`finalizeAssertion` succeeds iff `challengeWindowEnd ≤ now`; at the boundary
instant `now = challengeWindowEnd` the dispute fails and the finalize
succeeds. -/
theorem dispute_finalize_window_boundary (st : OracleState)
    (sender now assertionId : Nat) (tOk : Nat → Nat → Bool)
    (hp : (st.assertions assertionId).proposer ≠ 0)
    (hd : (st.assertions assertionId).isDisputed = false)
    (hr : (st.assertions assertionId).isResolved = false)
    (hf : (st.assertions assertionId).isFinalized = false)
    (ht : tOk (st.assertions assertionId).proposer
        (st.assertions assertionId).bond = true) :
    (okB (disputeAssertion st sender DISPUTER_BOND now assertionId)
        = decide (now < (st.assertions assertionId).challengeWindowEnd))
    ∧ (okB (finalizeAssertion st now assertionId tOk)
        = decide ((st.assertions assertionId).challengeWindowEnd ≤ now))
    ∧ okB (disputeAssertion st sender DISPUTER_BOND
        (st.assertions assertionId).challengeWindowEnd assertionId) = false
    ∧ okB (finalizeAssertion st
        (st.assertions assertionId).challengeWindowEnd assertionId tOk) = true := by
  have key : ∀ n : Nat,
      (okB (disputeAssertion st sender DISPUTER_BOND n assertionId)
        = decide (n < (st.assertions assertionId).challengeWindowEnd))
      ∧ (okB (finalizeAssertion st n assertionId tOk)
        = decide ((st.assertions assertionId).challengeWindowEnd ≤ n)) := by
    intro n
    constructor
    · simp only [disputeAssertion]
      split_ifs with h1 h2 h3 h4 h5 h6 <;> simp_all [okB]
    · simp only [finalizeAssertion]
      split_ifs with h1 h2 h3 h4 h5 <;> simp_all [okB]
  refine ⟨(key now).1, (key now).2, ?_, ?_⟩
  · rw [(key _).1]; simp
  · rw [(key _).2]; simp

/-- C6 witness: on the concrete proposed state with window end 100, the
boundary behaviour evaluated at time `now = 100`. -/
theorem dispute_finalize_window_boundary_witness :
    (okB (disputeAssertion stProp 6 DISPUTER_BOND 100 7) = decide ((100 : Nat) < 100))
    ∧ (okB (finalizeAssertion stProp 100 7 alwaysOk) = decide ((100 : Nat) ≤ 100))
    ∧ okB (disputeAssertion stProp 6 DISPUTER_BOND
        ((stProp.assertions 7).challengeWindowEnd) 7) = false
    ∧ okB (finalizeAssertion stProp
        ((stProp.assertions 7).challengeWindowEnd) 7 alwaysOk) = true :=
  dispute_finalize_window_boundary stProp 6 100 7 alwaysOk
    (by decide) (by decide) (by decide) (by decide) (by decide)

/-- C7: finalizing an undisputed proposed assertion after its window has
elapsed succeeds once, appends the proposer bond to the transfer log
exactly once, and a second `finalizeAssertion` call on the resulting state
(at any later time, under any transfer behaviour) reverts with
`AlreadyFinalized` and transfers nothing. -/
theorem finalize_idempotent (st : OracleState) (now now2 assertionId : Nat)
    (tOk tOk2 : Nat → Nat → Bool)
    (hp : (st.assertions assertionId).proposer ≠ 0)
    (hd : (st.assertions assertionId).isDisputed = false)
    (hf : (st.assertions assertionId).isFinalized = false)
    (hr : (st.assertions assertionId).isResolved = false)
    (hw : (st.assertions assertionId).challengeWindowEnd ≤ now)
    (ht : tOk (st.assertions assertionId).proposer
        (st.assertions assertionId).bond = true) :
    ∃ st1, finalizeAssertion st now assertionId tOk = Except.ok st1
      ∧ st1.payouts = st.payouts
          ++ [((st.assertions assertionId).proposer,
               (st.assertions assertionId).bond)]
      ∧ finalizeAssertion st1 now2 assertionId tOk2
          = Except.error OErr.alreadyFinalized := by
  have hnl : ¬ now < (st.assertions assertionId).challengeWindowEnd :=
    Nat.not_lt.mpr hw
  refine ⟨{ st with
      assertions := fun i =>
        if i = assertionId then
          { st.assertions assertionId with isFinalized := true }
        else st.assertions i,
      payouts := st.payouts
        ++ [((st.assertions assertionId).proposer,
             (st.assertions assertionId).bond)] }, ?_, rfl, ?_⟩
  · simp [finalizeAssertion, hp, hd, hf, hr, hnl, ht]
  · simp [finalizeAssertion, hp, hd]

/-- C7 witness: on the concrete proposed state at time 150, the double
finalize scenario evaluated end to end. -/
theorem finalize_idempotent_witness :
    ∃ st1, finalizeAssertion stProp 150 7 alwaysOk = Except.ok st1
      ∧ st1.payouts = stProp.payouts
          ++ [((stProp.assertions 7).proposer, (stProp.assertions 7).bond)]
      ∧ finalizeAssertion st1 200 7 alwaysOk
          = Except.error OErr.alreadyFinalized :=
  finalize_idempotent stProp 150 200 7 alwaysOk alwaysOk
    (by decide) (by decide) (by decide) (by decide) (by decide) (by decide)

/-- C8: on a disputed, unresolved, unfinalized assertion, the arbitrator call
`resolveDispute` pays the combined pot (proposer bond + disputer bond) to
the proposer when the outcome favours the proposer and to the disputer
otherwise, marks the assertion resolved with that outcome and touches no
other assertion; when the bounded-gas transfer fails the call reverts with
`TransferFailed`, and since every transition returns `Except` the caller
state is unchanged on any revert (no partial application). -/
theorem resolveDispute_pays_winner_atomically (st : OracleState)
    (sender assertionId : Nat) (outcome : Bool) (tOk : Nat → Nat → Bool)
    (hown : sender = st.owner)
    (hd : (st.assertions assertionId).isDisputed = true)
    (hr : (st.assertions assertionId).isResolved = false)
    (hf : (st.assertions assertionId).isFinalized = false) :
    (tOk (if outcome then (st.assertions assertionId).proposer
          else (st.assertions assertionId).disputer)
        ((st.assertions assertionId).bond
          + (st.assertions assertionId).disputeBond) = true →
      ∃ st1, resolveDispute st sender assertionId outcome tOk = Except.ok st1
        ∧ st1.payouts = st.payouts
            ++ [((if outcome then (st.assertions assertionId).proposer
                  else (st.assertions assertionId).disputer),
                 (st.assertions assertionId).bond
                   + (st.assertions assertionId).disputeBond)]
        ∧ (st1.assertions assertionId).isResolved = true
        ∧ (st1.assertions assertionId).resolutionOutcome = outcome
        ∧ ∀ i, i ≠ assertionId → st1.assertions i = st.assertions i)
    ∧ (tOk (if outcome then (st.assertions assertionId).proposer
          else (st.assertions assertionId).disputer)
        ((st.assertions assertionId).bond
          + (st.assertions assertionId).disputeBond) = false →
      resolveDispute st sender assertionId outcome tOk
        = Except.error OErr.transferFailed) := by
  constructor
  · intro ht
    refine ⟨{ st with
        assertions := fun i =>
          if i = assertionId then
            { st.assertions assertionId with
                isResolved := true, resolutionOutcome := outcome }
          else st.assertions i,
        payouts := st.payouts
          ++ [((if outcome then (st.assertions assertionId).proposer
                else (st.assertions assertionId).disputer),
               (st.assertions assertionId).bond
                 + (st.assertions assertionId).disputeBond)] },
      ?_, rfl, ?_, ?_, ?_⟩
    · simp [resolveDispute, hown, hd, hr, hf, ht]
    · simp
    · simp
    · intro i hi; simp [hi]
  · intro ht
    simp [resolveDispute, hown, hd, hr, hf, ht]

/-- C8 witness: on the concrete disputed state, resolving in favour of the
disputer pays the pot to account 6 when transfers succeed, and reverts with
`TransferFailed` when transfers fail. -/
theorem resolveDispute_pays_winner_atomically_witness :
    (∃ st1, resolveDispute stDisp 9 7 false alwaysOk = Except.ok st1
      ∧ st1.payouts = stDisp.payouts
          ++ [((if false then (stDisp.assertions 7).proposer
                else (stDisp.assertions 7).disputer),
               (stDisp.assertions 7).bond + (stDisp.assertions 7).disputeBond)]
      ∧ (st1.assertions 7).isResolved = true
      ∧ (st1.assertions 7).resolutionOutcome = false
      ∧ ∀ i, i ≠ 7 → st1.assertions i = stDisp.assertions i)
    ∧ resolveDispute stDisp 9 7 false neverOk
        = Except.error OErr.transferFailed :=
  ⟨(resolveDispute_pays_winner_atomically stDisp 9 7 false alwaysOk
      (by decide) (by decide) (by decide) (by decide)).1 (by decide),
   (resolveDispute_pays_winner_atomically stDisp 9 7 false neverOk
      (by decide) (by decide) (by decide) (by decide)).2 (by decide)⟩

/-- A run produces at most one propose submission. -/
theorem proposeCount_le_one (o : Outcome) : proposeCount o ≤ 1 := by
  cases o <;> simp [proposeCount]

/-- After a `processQuestion` run, the question hash is in the idempotency
set exactly when the run did not end in the catch handler. -/
theorem processQuestion_mem_iff (hashQ : String → Nat) (processed : List Nat)
    (q : String) (e : Env) :
    hashQ q ∈ (processQuestion hashQ processed q e).1
      ↔ (processQuestion hashQ processed q e).2 ≠ Outcome.failed := by
  by_cases hm : hashQ q ∈ processed
  · simp [processQuestion, hm]
  · obtain ⟨c, a, k, s⟩ := e
    cases c <;> cases a <;> cases k <;> cases s <;>
      simp_all [processQuestion, List.erase_cons_head]

/-- A delivery whose hash is already in the idempotency set is dropped
without touching the set. -/
theorem processQuestion_dup_dropped (hashQ : String → Nat)
    (processed : List Nat) (q : String) (e : Env)
    (hm : hashQ q ∈ processed) :
    processQuestion hashQ processed q e = (processed, Outcome.droppedDuplicate) := by
  simp [processQuestion, hm]

/-- C9: delivering the same question twice, under any environments, yields
at most one successful propose submission; when the first delivery does not
fail, the second is dropped as a duplicate; and the hash is in the
idempotency set after a run exactly when the run did not end in definitive
failure (it is added before dispatch and removed only by the catch
handler), so a later re-delivery can be reattempted after a failure. -/
theorem submission_idempotent (hashQ : String → Nat) (processed : List Nat)
    (q : String) (e1 e2 : Env) :
    proposeCount (processQuestion hashQ processed q e1).2
      + proposeCount
          (processQuestion hashQ (processQuestion hashQ processed q e1).1 q e2).2
      ≤ 1
    ∧ ((processQuestion hashQ processed q e1).2 ≠ Outcome.failed →
        (processQuestion hashQ (processQuestion hashQ processed q e1).1 q e2).2
          = Outcome.droppedDuplicate)
    ∧ (hashQ q ∈ (processQuestion hashQ processed q e1).1
        ↔ (processQuestion hashQ processed q e1).2 ≠ Outcome.failed) := by
  have h3 := processQuestion_mem_iff hashQ processed q e1
  refine ⟨?_, ?_, h3⟩
  · by_cases ho : (processQuestion hashQ processed q e1).2 = Outcome.failed
    · have hz : proposeCount (processQuestion hashQ processed q e1).2 = 0 := by
        simp [proposeCount, ho]
      rw [hz]
      simpa using proposeCount_le_one
        (processQuestion hashQ (processQuestion hashQ processed q e1).1 q e2).2
    · have hmem := h3.mpr ho
      rw [processQuestion_dup_dropped hashQ _ q e2 hmem]
      simpa [proposeCount] using
        proposeCount_le_one (processQuestion hashQ processed q e1).2
  · intro ho
    have hmem := h3.mpr ho
    rw [processQuestion_dup_dropped hashQ _ q e2 hmem]

/-- C9 witness: on an empty idempotency set, a clean first run proposes
once and the immediate second delivery of the same question is dropped. -/
theorem submission_idempotent_witness :
    processQuestion String.length [] "q?" ⟨false, false, ConsensusOutcome.clear, false⟩
      = ([2], Outcome.proposed)
    ∧ (proposeCount
        (processQuestion String.length [] "q?"
          ⟨false, false, ConsensusOutcome.clear, false⟩).2
      + proposeCount
          (processQuestion String.length
            (processQuestion String.length [] "q?"
              ⟨false, false, ConsensusOutcome.clear, false⟩).1 "q?"
            ⟨false, false, ConsensusOutcome.clear, false⟩).2 ≤ 1) :=
  ⟨by decide,
   (submission_idempotent String.length [] "q?"
      ⟨false, false, ConsensusOutcome.clear, false⟩
      ⟨false, false, ConsensusOutcome.clear, false⟩).1⟩

/-- C3 counterexample: `requestQuestion` hashes the question bytes alone
(no uniqueness salt), so a second submission of the identical 13-byte text
yields the same id, and once an assertion is proposed under that id the
repeated submission reverts `AlreadyProposed` instead of getting a fresh
id. (The opaque keccak parameter is instantiated with a stand-in hash.) -/
theorem same_text_same_id_cex :
    requestQuestion keccak0 st0 "Will it rain?" = Except.ok 13
    ∧ requestQuestion keccak0
        ((proposeAssertion st0 5 PROPOSER_BOND 0 13 [1]).toOption.getD st0)
        "Will it rain?" = Except.error OErr.alreadyProposed :=
  ⟨rfl, rfl⟩

/-- C3 amended: the id returned by `requestQuestion` is
`keccak256(bytes(question))` with no salt — it depends only on the hash
function and the question text, so two successful submissions of identical
text (from any states) yield the same id, never distinct ones. -/
theorem question_id_depends_only_on_text (keccak : Bytes → Nat)
    (st st2 : OracleState) (q : String) (id1 id2 : Nat)
    (h1 : requestQuestion keccak st q = Except.ok id1)
    (h2 : requestQuestion keccak st2 q = Except.ok id2) :
    id1 = id2 := by
  simp only [requestQuestion] at h1 h2
  split_ifs at h1 h2
  simp_all

/-- C3 amended witness: two submissions of the same text on the fresh state
both return id 13, and the theorem equates them. -/
theorem question_id_depends_only_on_text_witness :
    requestQuestion keccak0 st0 "Will it rain?" = Except.ok 13
      ∧ (13 : Nat) = 13 :=
  ⟨rfl,
   question_id_depends_only_on_text keccak0 st0 st0 "Will it rain?" 13 13
     rfl rfl⟩

/-- C4 counterexample: an unparsable provider response and a parsed
response missing the `verdict` field are both thrown to the caller as hard
errors by `getResolution`, not normalized to an `Unclear` verdict. -/
theorem validation_failure_thrown_cex :
    validateResolution none = Except.error PErr.invalidJson
    ∧ validateResolution (some (Json.obj
        [("summary", Json.str "s"), ("sources", Json.arr [])]))
      = Except.error PErr.missingFields :=
  ⟨rfl, rfl⟩

/-- C4 amended: `getResolution` throws a hard error to its caller on
unparsable JSON and on a missing/falsy `verdict` field (likewise `summary`
and non-array `sources`); the `Unclear` + synthetic "Insufficient Evidence"
citation normalization applies only when parsing and the field checks
succeed but the `sources` array is empty. -/
theorem validation_throws_and_empty_sources_normalized (v s : String)
    (hv : v ≠ "") (hs : s ≠ "") (hlen : s.length ≤ 280) :
    validateResolution none = Except.error PErr.invalidJson
    ∧ (∀ j : Json, truthy (getField j "verdict") = false →
        validateResolution (some j) = Except.error PErr.missingFields)
    ∧ validateResolution (some (Json.obj
        [("verdict", Json.str v), ("summary", Json.str s),
         ("sources", Json.arr [])]))
      = Except.ok ⟨"Unclear", s,
          [⟨"Insufficient Evidence", "",
            "AI could not find sufficient sources to support or refute the question"⟩]⟩ := by
  refine ⟨rfl, ?_, ?_⟩
  · intro j hj
    simp [validateResolution, hj]
  · have h280 : ¬ (280 < s.length) := Nat.not_lt.mpr hlen
    simp only [validateResolution, getField, truthy, isArrayField, jsonStr, hv,
      hs, h280, normalizeSource, strFieldOr, syntheticSourceJson]
    simp [hv, hs, h280]
    decide

/-- An entry of a bumped tally carries the bumped key or an existing key. -/
theorem mem_bumpCount (acc : List (String × Nat)) (v : String)
    (p : String × Nat) (hp : p ∈ bumpCount acc v) :
    (∃ n, (p.1, n) ∈ acc) ∨ p.1 = v := by
  induction acc with
  | nil =>
    simp [bumpCount] at hp
    exact Or.inr (by rw [hp])
  | cons q rest ih =>
    obtain ⟨k, n⟩ := q
    simp only [bumpCount] at hp
    by_cases hk : k = v
    · rw [if_pos hk] at hp
      rcases List.mem_cons.mp hp with h | h
      · exact Or.inr (by rw [h]; exact hk)
      · exact Or.inl ⟨p.2, List.mem_cons_of_mem _ (by simpa using h)⟩
    · rw [if_neg hk] at hp
      rcases List.mem_cons.mp hp with h | h
      · exact Or.inl ⟨n, by rw [h]; exact List.mem_cons_self _ _⟩
      · rcases ih h with h2 | h2
        · obtain ⟨m, hm⟩ := h2
          exact Or.inl ⟨m, List.mem_cons_of_mem _ hm⟩
        · exact Or.inr h2

/-- An entry of the folded tally carries a key from the accumulator or one
of the tallied verdicts. -/
theorem mem_foldl_bumpCount (vs : List String) (acc : List (String × Nat))
    (p : String × Nat) (hp : p ∈ vs.foldl bumpCount acc) :
    (∃ n, (p.1, n) ∈ acc) ∨ p.1 ∈ vs := by
  induction vs generalizing acc with
  | nil => exact Or.inl ⟨p.2, by simpa using hp⟩
  | cons v vs ih =>
    rcases ih (bumpCount acc v) (by simpa using hp) with h | h
    · obtain ⟨n, hn⟩ := h
      rcases mem_bumpCount acc v (p.1, n) hn with h2 | h2
      · exact Or.inl (by simpa using h2)
      · exact Or.inr (by simp at h2; simp [h2])
    · exact Or.inr (List.mem_cons_of_mem _ h)

/-- An entry of `verdictCounts vs` has its key occurring in `vs`. -/
theorem key_mem_of_mem_verdictCounts (vs : List String) (p : String × Nat)
    (hp : p ∈ verdictCounts vs) : p.1 ∈ vs := by
  rcases mem_foldl_bumpCount vs [] p hp with h | h
  · obtain ⟨n, hn⟩ := h
    cases hn
  · exact h

/-- Function `bestByConfidence` on a nonempty list returns a member of maximal
confidence (the first such, by the stable JS sort). -/
theorem bestByConfidence_spec (d : Detail) (rest : List Detail) :
    ∃ m, bestByConfidence (d :: rest) = some m ∧ m ∈ d :: rest
      ∧ ∀ x ∈ d :: rest, confOf x ≤ confOf m := by
  induction rest generalizing d with
  | nil => exact ⟨d, rfl, by simp, by simp⟩
  | cons x xs ih =>
    obtain ⟨m, hm, hmem, hbnd⟩ := ih (if confOf d < confOf x then x else d)
    simp only [bestByConfidence, List.foldl_cons] at hm ⊢
    refine ⟨m, hm, ?_, ?_⟩
    · rcases List.mem_cons.mp hmem with h | h
      · subst h
        split_ifs with hlt <;> simp
      · simp [List.mem_cons_of_mem _ (List.mem_cons_of_mem _ h)]
    · have hstep : confOf d ≤ confOf (if confOf d < confOf x then x else d) := by
        split_ifs with hlt
        · exact Nat.le_of_lt hlt
        · exact Nat.le_refl _
      have hstepx : confOf x ≤ confOf (if confOf d < confOf x then x else d) := by
        split_ifs with hlt
        · exact Nat.le_refl _
        · exact Nat.le_of_not_lt hlt
      have hstepm : confOf (if confOf d < confOf x then x else d) ≤ confOf m :=
        hbnd _ (List.mem_cons_self _ _)
      intro y hy
      rcases List.mem_cons.mp hy with h | h
      · exact h ▸ Nat.le_trans hstep hstepm
      · rcases List.mem_cons.mp h with h2 | h2
        · exact h2 ▸ Nat.le_trans hstepx hstepm
        · exact hbnd y (List.mem_cons_of_mem _ h2)

/-- C5: consensus is computed only over the verified responses — it is
reached exactly when some verdict label has a tallied count reaching
`⌈verified/2⌉`; when label `v` wins with count `c`, the answer is a
verified response labelled `v` of maximal reported confidence, and the
result records `c` and the verified total; on the concrete run with three
verified answers labelled [SUPPORTED, SUPPORTED, REFUTED] the result is
clear with the higher-confidence SUPPORTED answer, `consensusCount = 2`,
`totalModels = 3`. -/
theorem consensus_majority_rule (results : List Detail) :
    ((computeConsensus results).isClear = true
      ↔ (verdictCounts ((verifiedOf results).map (fun r => r.response.verdict))).any
          (fun p => thresholdOf results ≤ p.2) = true)
    ∧ (∀ v c,
        (verdictCounts ((verifiedOf results).map (fun r => r.response.verdict))).find?
            (fun p => thresholdOf results ≤ p.2) = some (v, c) →
        ∃ best, best ∈ verifiedOf results ∧ best.response.verdict = v
          ∧ (∀ r ∈ verifiedOf results, r.response.verdict = v →
              confOf r ≤ confOf best)
          ∧ computeConsensus results
              = ⟨true, some best.response, c, (verifiedOf results).length, results⟩)
    ∧ computeConsensus ssr = ⟨true, some respS2, 2, 3, ssr⟩ := by
  have main : ∀ v c,
      (verdictCounts ((verifiedOf results).map (fun r => r.response.verdict))).find?
          (fun p => thresholdOf results ≤ p.2) = some (v, c) →
      ∃ best, best ∈ verifiedOf results ∧ best.response.verdict = v
        ∧ (∀ r ∈ verifiedOf results, r.response.verdict = v →
            confOf r ≤ confOf best)
        ∧ computeConsensus results
            = ⟨true, some best.response, c, (verifiedOf results).length, results⟩ := by
    intro v c hfind
    have hmemc : (v, c) ∈ verdictCounts
        ((verifiedOf results).map (fun r => r.response.verdict)) :=
      List.mem_of_find?_eq_some hfind
    have hkey : v ∈ (verifiedOf results).map (fun r => r.response.verdict) :=
      key_mem_of_mem_verdictCounts _ (v, c) hmemc
    obtain ⟨r0, hr0, hv0⟩ := List.mem_map.mp hkey
    have hr0f : r0 ∈ (verifiedOf results).filter
        (fun r => r.response.verdict = v) := by
      simp [List.mem_filter, hr0, hv0]
    have hne : ¬ (verifiedOf results).isEmpty = true := by
      cases h : verifiedOf results with
      | nil => rw [h] at hr0; cases hr0
      | cons a l => simp [List.isEmpty]
    cases hfl : (verifiedOf results).filter (fun r => r.response.verdict = v) with
    | nil => rw [hfl] at hr0f; cases hr0f
    | cons d rest =>
      obtain ⟨m, hm, hmem, hbnd⟩ := bestByConfidence_spec d rest
      have hmf : m ∈ (verifiedOf results).filter
          (fun r => r.response.verdict = v) := hfl ▸ hmem
      refine ⟨m, (List.mem_filter.mp hmf).1, ?_, ?_, ?_⟩
      · have := (List.mem_filter.mp hmf).2
        simpa using this
      · intro r hr hrv
        have hrf : r ∈ (verifiedOf results).filter
            (fun r => r.response.verdict = v) :=
          List.mem_filter.mpr ⟨hr, by simp [hrv]⟩
        exact hbnd r (hfl ▸ hrf)
      · simp only [computeConsensus]
        rw [if_neg hne, hfind]
        simp only [hfl, hm]
  refine ⟨?_, main, by decide⟩
  constructor
  · intro hclear
    by_cases hemp : (verifiedOf results).isEmpty = true
    · exfalso
      rw [show computeConsensus results
          = ⟨false, none, 0, results.length, results⟩ from by
        simp only [computeConsensus]; rw [if_pos hemp]] at hclear
      exact Bool.false_ne_true hclear
    · cases hfind : (verdictCounts
          ((verifiedOf results).map (fun r => r.response.verdict))).find?
          (fun p => thresholdOf results ≤ p.2) with
      | none =>
        exfalso
        rw [show computeConsensus results
            = ⟨false, none, 0, (verifiedOf results).length, results⟩ from by
          simp only [computeConsensus]; rw [if_neg hemp, hfind]] at hclear
        exact Bool.false_ne_true hclear
      | some p =>
        exact List.any_eq_true.mpr
          ⟨p, List.mem_of_find?_eq_some hfind,
           by simpa using List.find?_some hfind⟩
  · intro hany
    obtain ⟨p, hpmem, hp⟩ := List.any_eq_true.mp hany
    have hsome : ((verdictCounts
        ((verifiedOf results).map (fun r => r.response.verdict))).find?
        (fun p => thresholdOf results ≤ p.2)).isSome = true :=
      List.find?_isSome.mpr ⟨p, hpmem, hp⟩
    obtain ⟨q, hq⟩ := Option.isSome_iff_exists.mp hsome
    obtain ⟨v, c⟩ := q
    obtain ⟨best, _, _, _, heq⟩ := main v c hq
    rw [heq]

/-- C5 witness: the consensus rule applied to the concrete
[SUPPORTED, SUPPORTED, REFUTED] run, with the winning-label entry
discharged by evaluation. -/
theorem consensus_majority_rule_witness :
    ∃ best, best ∈ verifiedOf ssr ∧ best.response.verdict = "SUPPORTED"
      ∧ (∀ r ∈ verifiedOf ssr, r.response.verdict = "SUPPORTED" →
          confOf r ≤ confOf best)
      ∧ computeConsensus ssr
          = ⟨true, some best.response, 2, (verifiedOf ssr).length, ssr⟩ :=
  (consensus_majority_rule ssr).2.1 "SUPPORTED" 2 (by decide)

/-- C1 counterexample: a run of `getAIConsensus` in which exactly two
responses pass self-verification, labelled SUPPORTED and REFUTED (one
each), returns `isClear = true` with the SUPPORTED answer populated — the
threshold `⌈2/2⌉ = 1` is met by both labels and the first tallied label
wins — not `isClear = false` with no answer. -/
theorem two_verified_split_still_clear_cex :
    getAIConsensus (QueryOutcome.ok "S") (some (QueryOutcome.ok "R")) none
        parse0 verify0
      = Except.ok ⟨true, some respS, 1, 2,
          [⟨"perplexity", respS, true⟩, ⟨"gemini", respR, true⟩]⟩
    ∧ respS.verdict = "SUPPORTED" ∧ respR.verdict = "REFUTED" :=
  ⟨rfl, rfl, rfl⟩

/-- C1 amended: whenever exactly two responses pass self-verification, the
first labelled SUPPORTED and the second REFUTED, the consensus threshold
`⌈2/2⌉ = 1` is met by both labels, so the round is reported clear with the
first-tallied (SUPPORTED) response as the answer, `consensusCount = 1` and
`totalModels = 2` — never as a no-consensus hard stop. -/
theorem two_verified_split_reaches_consensus (results : List Detail)
    (a b : Detail) (hfil : verifiedOf results = [a, b])
    (ha : a.response.verdict = "SUPPORTED")
    (hb : b.response.verdict = "REFUTED") :
    computeConsensus results = ⟨true, some a.response, 1, 2, results⟩ := by
  have hthr : thresholdOf results = 1 := by
    simp [thresholdOf, hfil]
  simp only [computeConsensus, hfil, hthr]
  simp [verdictCounts, bumpCount, ha, hb, bestByConfidence, List.filter]

/-- C1 amended witness: the two-way split evaluated on the concrete
details list. -/
theorem two_verified_split_reaches_consensus_witness :
    verifiedOf splitTwo
        = [⟨"perplexity", respS, true⟩, ⟨"gemini", respR, true⟩]
      ∧ computeConsensus splitTwo
        = ⟨true, some respS, 1, 2, splitTwo⟩ :=
  ⟨by decide,
   two_verified_split_reaches_consensus splitTwo
     ⟨"perplexity", respS, true⟩ ⟨"gemini", respR, true⟩
     (by decide) (by decide) (by decide)⟩

/-- C2 counterexample: a round in which only Perplexity fails (both other
configured providers return content) is rejected as a hard failure by
`getAIConsensus` — the single provider failure aborts the whole round even
though not all providers failed; the same round with Perplexity succeeding
is not a hard failure. -/
theorem perplexity_failure_aborts_round_cex :
    getAIConsensus QueryOutcome.fail (some (QueryOutcome.ok "S"))
        (some (QueryOutcome.ok "R")) parse0 verify0 = Except.error ()
    ∧ okB (getAIConsensus (QueryOutcome.ok "S") (some (QueryOutcome.ok "S"))
        (some (QueryOutcome.ok "R")) parse0 verify0) = true :=
  ⟨rfl, rfl⟩

/-- C2 amended: a failure of Gemini or of OpenAI only removes that provider
from consideration (the round result is identical to the round where that
provider was not configured at all) and the round still completes whenever
Perplexity answers; but a failure of Perplexity alone rejects the whole
round as a hard failure, regardless of the other providers. -/
theorem provider_failure_handling (c : String) (g o : Option QueryOutcome)
    (parse : String → Option Consensus.AIResponse)
    (verify : String → Consensus.AIResponse → Bool) :
    okB (getAIConsensus (QueryOutcome.ok c) g o parse verify) = true
    ∧ getAIConsensus (QueryOutcome.ok c) (some QueryOutcome.fail) o parse verify
        = getAIConsensus (QueryOutcome.ok c) none o parse verify
    ∧ getAIConsensus (QueryOutcome.ok c) g (some QueryOutcome.fail) parse verify
        = getAIConsensus (QueryOutcome.ok c) g none parse verify
    ∧ getAIConsensus QueryOutcome.fail g o parse verify = Except.error () := by
  refine ⟨rfl, ?_, ?_, rfl⟩
  · simp [getAIConsensus, runQueries, collectDetails, List.filterMap_cons]
  · cases g with
    | none => simp [getAIConsensus, runQueries, collectDetails,
        List.filterMap_cons]
    | some go =>
      cases go <;> simp [getAIConsensus, runQueries, collectDetails,
        List.filterMap_cons]

/-- C2 amended witness: the provider-failure clauses evaluated at a
concrete round. -/
theorem provider_failure_handling_witness :
    okB (getAIConsensus (QueryOutcome.ok "S") (some QueryOutcome.fail)
        (some QueryOutcome.fail) parse0 verify0) = true
    ∧ getAIConsensus QueryOutcome.fail (some QueryOutcome.fail)
        (some QueryOutcome.fail) parse0 verify0 = Except.error () :=
  ⟨(provider_failure_handling "S" (some QueryOutcome.fail)
      (some QueryOutcome.fail) parse0 verify0).1,
   (provider_failure_handling "S" (some QueryOutcome.fail)
      (some QueryOutcome.fail) parse0 verify0).2.2.2⟩

/-- C4 amended witness: the normalization evaluated at a concrete verdict
and summary. -/
theorem validation_throws_witness :
    validateResolution (some (Json.obj
        [("verdict", Json.str "Supported"), ("summary", Json.str "sum"),
         ("sources", Json.arr [])]))
      = Except.ok ⟨"Unclear", "sum",
          [⟨"Insufficient Evidence", "",
            "AI could not find sufficient sources to support or refute the question"⟩]⟩
    ∧ validateResolution (some (Json.obj [("verdict", Json.num 0)]))
      = Except.error PErr.missingFields :=
  ⟨(validation_throws_and_empty_sources_normalized "Supported" "sum"
      (by decide) (by decide) (by decide)).2.2,
   (validation_throws_and_empty_sources_normalized "Supported" "sum"
      (by decide) (by decide) (by decide)).2.1
     (Json.obj [("verdict", Json.num 0)]) (by decide)⟩




